import Mathlib

/-!
Shallow embedding of the cbeta-rag core (generation gateway, relevance
reranker, retrieval orchestrator, text chunker) and proofs about it.

Conventions used throughout:
* Python strings are Lean `String` (or `List Char` in the chunker, where
  per-character slicing matters); Python `len` is `String.length` /
  `List.length` (both count code points, as Python does).
* Python `x or y` on strings (empty string falsy) is `pyOrS`.
* Floating-point scores are modelled as rationals `ℚ`; the float
  arithmetic of the source performs the same field operations.
* Network calls are modelled by oracles: a function from the request data
  to the outcome the backend would produce.  Exceptions become explicit
  error values.
-/

/-- Python `opt or default` for optional strings: `None` and `""` are falsy. -/
def pyOrS : Option String → String → String
| some s, d => if s = "" then d else s
| none, d => d

/-! ## Generation gateway (`src/app/services/llm.py`) -/

/-- One entry of `PRESET_PROVIDERS` (`src/app/core/config.py`). -/
structure Preset where
  base_url : String
  default_model : String
deriving DecidableEq

/-- The static preset table `PRESET_PROVIDERS` from `src/app/core/config.py`. -/
def PRESET_PROVIDERS : List (String × Preset) := [
  ("openai", ⟨"https://api.openai.com/v1", "gpt-4o"⟩),
  ("anthropic", ⟨"https://api.anthropic.com/v1", "claude-sonnet-4-20250514"⟩),
  ("deepseek", ⟨"https://api.deepseek.com/v1", "deepseek-chat"⟩),
  ("qwen", ⟨"https://dashscope.aliyuncs.com/compatible-mode/v1", "qwen-plus"⟩),
  ("glm", ⟨"https://open.bigmodel.cn/api/paas/v4", "glm-4-flash"⟩),
  ("gemini", ⟨"https://generativelanguage.googleapis.com/v1beta/openai", "gemini-2.0-flash"⟩),
  ("openrouter", ⟨"https://openrouter.ai/api/v1", "anthropic/claude-sonnet-4"⟩),
  ("siliconflow", ⟨"https://api.siliconflow.cn/v1", "Qwen/Qwen2.5-72B-Instruct"⟩),
  ("ollama", ⟨"http://host.docker.internal:11434", "qwen3:8b"⟩)]

/-- Dict-style lookup in an association table (Python `dict[key]` / `.get`). -/
def lookupStr (table : List (String × Preset)) (k : String) : Option Preset :=
  (table.find? (fun p => p.1 = k)).map (fun p => p.2)

/-- The environment-derived `Settings` of `src/app/core/config.py`
(only the fields the gateway reads). -/
structure Settings where
  DEFAULT_PROVIDER : String := "ollama"
  OPENAI_API_KEY : String := ""
  ANTHROPIC_API_KEY : String := ""
  DEEPSEEK_API_KEY : String := ""
  QWEN_API_KEY : String := ""
  GLM_API_KEY : String := ""
  GEMINI_API_KEY : String := ""
  OPENROUTER_API_KEY : String := ""
  SILICONFLOW_API_KEY : String := ""
deriving DecidableEq

/-- `Settings.get_api_key`: the `key_map` dict lookup with default `""`. -/
def Settings.get_api_key (s : Settings) (provider : String) : String :=
  if provider = "openai" then s.OPENAI_API_KEY
  else if provider = "anthropic" then s.ANTHROPIC_API_KEY
  else if provider = "deepseek" then s.DEEPSEEK_API_KEY
  else if provider = "qwen" then s.QWEN_API_KEY
  else if provider = "glm" then s.GLM_API_KEY
  else if provider = "gemini" then s.GEMINI_API_KEY
  else if provider = "openrouter" then s.OPENROUTER_API_KEY
  else if provider = "siliconflow" then s.SILICONFLOW_API_KEY
  else if provider = "ollama" then ""
  else ""

/-- The settings object with all defaults (no env overrides). -/
def defaultSettings : Settings := {}

/-- `FALLBACK_CHAIN = ["glm", "ollama"]` from `src/app/services/llm.py`. -/
def FALLBACK_CHAIN : List String := ["glm", "ollama"]

/-- `FALLBACK_STATUS_CODES = {429, 500, 502, 503, 504}`. -/
def FALLBACK_STATUS_CODES : List Nat := [429, 500, 502, 503, 504]

/-- The `LLMConfig` dataclass of `src/app/services/llm.py`. -/
structure LLMConfig where
  provider : String := ""
  base_url : String := ""
  api_key : String := ""
  model : String := ""
  is_fallback : Bool := false
  original_provider : String := ""
  fallback_level : Nat := 0
deriving DecidableEq

/-- `LLMConfig.from_request`: build a config from request parameters.
`ProviderNotFoundError` becomes `Except.error`.  The global `settings` and
`PRESET_PROVIDERS` are passed explicitly. -/
def LLMConfig.from_request (s : Settings) (presets : List (String × Preset))
    (provider base_url api_key model : Option String) : Except String LLMConfig :=
  let prov := pyOrS provider s.DEFAULT_PROVIDER
  if pyOrS base_url "" ≠ "" then
    .ok { provider := prov, base_url := pyOrS base_url "", api_key := pyOrS api_key "",
          model := pyOrS model "custom-model" }
  else
    match lookupStr presets prov with
    | none => .error ("Provider " ++ prov ++ " 不存在")
    | some preset =>
      .ok { provider := prov, base_url := preset.base_url,
            api_key := pyOrS api_key (s.get_api_key prov),
            model := pyOrS model preset.default_model }

/-- `LLMConfig.to_fallback`: build the level-`level` fallback config.
Mirrors the source exactly, including the clamp `level >= len(FALLBACK_CHAIN)
-> len-1` and the direct chain/preset indexing (`FALLBACK_CHAIN[level]`). -/
def LLMConfig.to_fallback (s : Settings) (cfg : LLMConfig) (level : Nat) : LLMConfig :=
  let lv := if FALLBACK_CHAIN.length ≤ level then FALLBACK_CHAIN.length - 1 else level
  let fp := FALLBACK_CHAIN.getD lv ""
  let preset := (lookupStr PRESET_PROVIDERS fp).getD ⟨"", ""⟩
  { provider := fp, base_url := preset.base_url, api_key := s.get_api_key fp,
    model := preset.default_model, is_fallback := true,
    original_provider := if cfg.original_provider = "" then cfg.provider
                         else cfg.original_provider,
    fallback_level := lv }

/-- The error raised by one backend call: the five httpx classes of
`FALLBACK_ERRORS`, an `httpx.HTTPStatusError` with its status code, or any
other exception. -/
inductive CallError where
| connectError
| connectTimeout
| readTimeout
| writeTimeout
| poolTimeout
| httpStatusError (code : Nat)
| otherException (name : String)
deriving DecidableEq

/-- Outcome of one raw backend call (`_openai_chat` / `_anthropic_chat` /
`_ollama_chat` before the fallback-mark decoration). -/
inductive CallResult where
| ok (content : String)
| error (e : CallError)
deriving DecidableEq

/-- Outcome of `LLMService.chat`: a normal answer, a propagated exception,
or `LLMServiceDegraded`. -/
inductive ChatResult where
| ok (content : String)
| exc (e : CallError)
| degraded (msg : String)
deriving DecidableEq

/-- Whether a `ChatResult` is the `LLMServiceDegraded` error. -/
def isDegraded : ChatResult → Bool
| .degraded _ => true
| _ => false

/-- The retry classification of the source: one of `FALLBACK_ERRORS`, or an
HTTP status in `FALLBACK_STATUS_CODES`. -/
def retryable : CallError → Bool
| .httpStatusError c => FALLBACK_STATUS_CODES.contains c
| .otherException _ => false
| _ => true

/-- `type(e).__name__` for the connection-error classes. -/
def errName : CallError → String
| .connectError => "ConnectError"
| .connectTimeout => "ConnectTimeout"
| .readTimeout => "ReadTimeout"
| .writeTimeout => "WriteTimeout"
| .poolTimeout => "PoolTimeout"
| .httpStatusError _ => "HTTPStatusError"
| .otherException n => n

/-- The fallback disclosure prefixed to a degraded answer by the adapters. -/
def fallbackMark (cfg : LLMConfig) : String :=
  "[使用本地模型 " ++ cfg.model ++ "，原服务 " ++ cfg.original_provider ++ " 暂时不可用]\n\n"

/-- `LLMService._call_llm`: dispatch to an adapter and perform the call.
The protocol adapters all decorate a successful answer with `fallbackMark`
when `is_fallback` is set; the wire exchange itself is the oracle. -/
def LLMService.callLLM (oracle : LLMConfig → CallResult) (cfg : LLMConfig) : CallResult :=
  match oracle cfg with
  | .ok content => .ok (if cfg.is_fallback then fallbackMark cfg ++ content else content)
  | .error e => .error e

/-- Lift a direct call outcome to a `ChatResult` (uncaught exceptions
propagate). -/
def liftCall : CallResult → ChatResult
| .ok c => .ok c
| .error e => .exc e

/-- The `while next_level <= len(FALLBACK_CHAIN)` loop of
`LLMService._try_fallback`.  `gas` counts the remaining loop iterations,
`gas = len(FALLBACK_CHAIN) + 1 - next_level`, so `gas = 0` is exactly the
loop exit that raises `LLMServiceDegraded`.  Returns the list of configs
attempted by the loop together with the final outcome. -/
def LLMService.tryFallbackGo (s : Settings) (oracle : LLMConfig → CallResult) :
    Nat → Nat → LLMConfig → String → List LLMConfig × ChatResult
| 0, _, _, _ => ([], .degraded "所有 LLM 服务均不可用")
| gas+1, next_level, config, _error_msg =>
  let fc := LLMConfig.to_fallback s config next_level
  match LLMService.callLLM oracle fc with
  | .ok content => ([fc], .ok content)
  | .error e =>
    match e with
    | .otherException n => ([fc], .exc (.otherException n))
    | .httpStatusError code =>
      if FALLBACK_STATUS_CODES.contains code then
        if fc.provider = "ollama" then ([fc], .exc (.httpStatusError code))
        else
          let r := LLMService.tryFallbackGo s oracle gas (next_level+1) fc
                     ("返回 " ++ toString code)
          (fc :: r.1, r.2)
      else ([fc], .exc (.httpStatusError code))
    | e =>
      if fc.provider = "ollama" then ([fc], .exc e)
      else
        let r := LLMService.tryFallbackGo s oracle gas (next_level+1) fc
                   ("连接失败 (" ++ errName e ++ ")")
        (fc :: r.1, r.2)

/-- `LLMService._try_fallback`: enter the loop at
`next_level = config.fallback_level + 1`. -/
def LLMService.tryFallback (s : Settings) (oracle : LLMConfig → CallResult)
    (config : LLMConfig) (error_msg : String) : List LLMConfig × ChatResult :=
  LLMService.tryFallbackGo s oracle
    (FALLBACK_CHAIN.length + 1 - (config.fallback_level + 1))
    (config.fallback_level + 1) config error_msg

/-- `LLMService.chat`: direct call for the terminal `ollama` profile,
otherwise one attempt followed by the fallback loop for retryable errors.
Returns the ordered list of configs attempted and the outcome. -/
def LLMService.chat (s : Settings) (oracle : LLMConfig → CallResult)
    (config : LLMConfig) (allow_fallback fallback_enabled : Bool) :
    List LLMConfig × ChatResult :=
  if config.provider = "ollama" then
    ([config], liftCall (LLMService.callLLM oracle config))
  else
    match LLMService.callLLM oracle config with
    | .ok c => ([config], .ok c)
    | .error e =>
      match e with
      | .httpStatusError code =>
        if allow_fallback && fallback_enabled && FALLBACK_STATUS_CODES.contains code then
          let r := LLMService.tryFallback s oracle config ("返回 " ++ toString code)
          (config :: r.1, r.2)
        else ([config], .exc (.httpStatusError code))
      | .otherException n => ([config], .exc (.otherException n))
      | e =>
        if allow_fallback && fallback_enabled then
          let r := LLMService.tryFallback s oracle config
                     ("连接失败 (" ++ errName e ++ ")")
          (config :: r.1, r.2)
        else ([config], .exc e)

/-- Decidable equality for resolution results. -/
instance : DecidableEq (Except String LLMConfig) := fun a b =>
  match a, b with
  | .ok x, .ok y => decidable_of_iff (x = y) (by simp)
  | .error x, .error y => decidable_of_iff (x = y) (by simp)
  | .ok _, .error _ => .isFalse (by simp)
  | .error _, .ok _ => .isFalse (by simp)

/-! ### Concrete inputs for the gateway claims -/

/-- The preset `deepseek` profile as resolved by `from_request`
(a non-terminal primary provider). -/
def deepseekCfg : LLMConfig :=
  { provider := "deepseek", base_url := "https://api.deepseek.com/v1",
    model := "deepseek-chat" }

/-- The preset `ollama` profile as resolved by `from_request` with no
arguments (the configured default provider). -/
def ollamaCfg : LLMConfig :=
  { provider := "ollama", base_url := "http://host.docker.internal:11434",
    model := "qwen3:8b" }

/-- A backend environment in which every provider times out on connect. -/
def allDownOracle : LLMConfig → CallResult := fun _ => .error .connectTimeout

/-! ## Relevance reranker (`src/app/services/reranker.py`)

A retrieval candidate is a Python dict; the fields below are the keys the
reranker and the orchestrator read (`id`, `content`, `metadata["title"]`,
`score`) plus the two keys the reranker adds (`original_score`,
`rerank_score`).  `Option` models a possibly-absent key.  Embedding
fetches are an oracle `fetch : String → Option (List ℚ)`; `none` is an
exception inside `_get_embedding`.  The cosine-similarity computation uses
real square roots, so it is abstracted as a parameter `sim`; every claim
below holds for an arbitrary `sim`, hence for the cosine of the source. -/

structure Doc where
  id : String := ""
  content : String := ""
  title : Option String := none
  score : Option ℚ := none
  original_score : Option ℚ := none
  rerank_score : Option ℚ := none
deriving DecidableEq

/-- Python `content[:500] if len(content) > 500 else content`. -/
def pyTruncate (n : Nat) (s : String) : String :=
  if n < s.length then ⟨s.toList.take n⟩ else s

/-- `RerankerService._get_doc_embedding`: fetch one candidate embedding on
the truncated content, catching every exception (`none`) and returning the
empty vector in that case, so the candidate is kept. -/
def RerankerService.getDocEmbedding (fetch : String → Option (List ℚ)) (doc : Doc) :
    List ℚ :=
  match fetch (pyTruncate 500 doc.content) with
  | some e => e
  | none => []

/-- The per-candidate scoring step of `RerankerService.rerank`: a non-empty
document embedding gets the fused score
`original * 0.3 + similarity * 0.7`; a failed (empty) one keeps its
original retrieval score with similarity 0. -/
def RerankerService.scoreDoc (sim : List ℚ → List ℚ → ℚ)
    (fetch : String → Option (List ℚ)) (query_embedding : List ℚ) (doc : Doc) : Doc :=
  let doc_embedding := RerankerService.getDocEmbedding fetch doc
  if doc_embedding ≠ [] then
    let similarity := sim query_embedding doc_embedding
    let original_score := doc.score.getD (1/2)
    let combined_score := original_score * (3/10) + similarity * (7/10)
    { doc with original_score := some (doc.score.getD 0),
               rerank_score := some similarity,
               score := some combined_score }
  else
    { doc with original_score := some (doc.score.getD 0),
               rerank_score := some 0,
               score := some (doc.score.getD 0) }

/-- The sort key `x.get("score", 0)`. -/
def docKey (d : Doc) : ℚ := d.score.getD 0

/-- The descending-by-score order used by
`scored_docs.sort(key=..., reverse=True)`. -/
def byScoreDesc (a b : Doc) : Prop := docKey b ≤ docKey a

instance : DecidableRel byScoreDesc :=
  fun a b => inferInstanceAs (Decidable (docKey b ≤ docKey a))

instance : IsTotal Doc byScoreDesc := ⟨fun a b => le_total (docKey b) (docKey a)⟩

instance : IsTrans Doc byScoreDesc :=
  ⟨fun _ _ _ hab hbc => le_trans hbc hab⟩

/-- The `try:` body of `RerankerService.rerank`: compute the query
embedding (an exception or an empty vector abandons reranking and returns
the input order truncated), score every candidate, stable-sort descending
by fused score, truncate to `top_k`.  Python's `list.sort` is a stable
sort; `List.insertionSort` is the stable sort by the same total preorder,
hence produces the identical list. -/
def RerankerService.rerankBody (sim : List ℚ → List ℚ → ℚ)
    (fetch : String → Option (List ℚ)) (query : String) (documents : List Doc)
    (top_k : Nat) : List Doc :=
  let query_embedding := (fetch query).getD []
  if query_embedding = [] then documents.take top_k
  else
    let scored_docs := documents.map (RerankerService.scoreDoc sim fetch query_embedding)
    (List.insertionSort byScoreDesc scored_docs).take top_k

/-- The `except Exception` wrapper of `RerankerService.rerank`: any
unexpected error from the body degrades to the original order truncated to
`top_k`. -/
def RerankerService.rerankGuard (documents : List Doc) (top_k : Nat) :
    Except String (List Doc) → List Doc
| .ok r => r
| .error _ => documents.take top_k

/-- `RerankerService.rerank`: empty input short-circuits, otherwise the
guarded body runs (the pure body never raises, so it enters the guard as
`Except.ok`). -/
def RerankerService.rerank (sim : List ℚ → List ℚ → ℚ)
    (fetch : String → Option (List ℚ)) (query : String) (documents : List Doc)
    (top_k : Nat) : List Doc :=
  if documents = [] then []
  else RerankerService.rerankGuard documents top_k
    (.ok (RerankerService.rerankBody sim fetch query documents top_k))

/-! ## Retrieval orchestrator (`src/app/core/rag.py`)

`ask` mutates Python dicts shared through a shallow `messages.copy()`, so
the message store is modelled as an explicit heap: `heap : List Message`
holds the message objects and the caller's `messages` list holds indices
into it.  Retrieval (`self.search`) is abstracted by its outcome
`results`; the generation call transfers no state, so `askState` returns
the heap after `ask` together with the reference list `ask` hands to the
gateway. -/

structure Message where
  role : String
  content : String
deriving DecidableEq

/-- The part of `RAG_SYSTEM_PROMPT` before the `contexts` placeholder. -/
def RAG_PROMPT_PRE : String :=
  "你是一个读了很多佛经的觉悟者，专门解答佛经的问题，也善于使用比喻的方法来解释佛经和佛经的问题。尤其精通华严经，愣严经和妙法莲花经。\n\n以下是与用户问题相关的佛经原文：\n---\n"

/-- The part of `RAG_SYSTEM_PROMPT` after the `contexts` placeholder. -/
def RAG_PROMPT_POST : String :=
  "\n---\n\n请基于上述佛经内容回答用户的问题。如果内容不足以回答，请诚实说明。\n回答时请引用相关经文来源（如：《心经》T0251）。\n使用繁体中文回答。"

/-- `RAG_SYSTEM_PROMPT.format(contexts=...)`. -/
def ragSystemPrompt (contexts : String) : String :=
  RAG_PROMPT_PRE ++ contexts ++ RAG_PROMPT_POST

/-- One candidate rendered into the context template. -/
def contextEntry (r : Doc) : String :=
  "【" ++ r.title.getD "未知经典" ++ "】(" ++ r.id ++ ")\n" ++ r.content

/-- `"\n\n".join(contexts)`. -/
def contextText (results : List Doc) : String :=
  String.intercalate "\n\n" (results.map contextEntry)

/-- The last `user` message's content; `""` both when no `user` role exists
and when its content is empty (Python falsiness merges the two). -/
def lastUserContent (heap : List Message) (messages : List Nat) : String :=
  match messages.reverse.find? (fun i => (heap.getD i ⟨"", ""⟩).role = "user") with
  | none => ""
  | some i => (heap.getD i ⟨"", ""⟩).content

/-- The state effect of `RAGPipeline.ask`: returns the heap after the call
and the reference list passed on to the gateway.  `final_messages =
messages.copy()` copies only the reference list; `final_messages[0]
["content"] = system_prompt` writes through the shared reference into the
heap. -/
def RAGPipeline.askState (heap : List Message) (messages : List Nat)
    (results : List Doc) (rag : Bool) : List Message × List Nat :=
  if lastUserContent heap messages = "" then (heap, messages)
  else
    let final_messages := messages
    if rag ∧ results ≠ [] then
      let system_prompt := ragSystemPrompt (contextText results)
      match final_messages with
      | i :: _ =>
        if (heap.getD i ⟨"", ""⟩).role = "system" then
          (heap.set i { role := (heap.getD i ⟨"", ""⟩).role, content := system_prompt },
           final_messages)
        else
          (heap ++ [{ role := "system", content := system_prompt }],
           heap.length :: final_messages)
      | [] => (heap ++ [{ role := "system", content := system_prompt }], [heap.length])
    else (heap, final_messages)

/-- `int(top_k * 1.5)`: the float product is exact for any realistic
`top_k` and `int` truncates towards zero, i.e. `⌊3 * top_k / 2⌋`. -/
def searchK (top_k : Nat) (rerank : Bool) : Nat :=
  if rerank then 3 * top_k / 2 else top_k

/-- `RAGPipeline.search` with the vector store and the reranker abstracted
by oracles (`db k` = the candidates the store returns for a request of `k`;
`rrk` = the reranker).  Returns the candidate count requested from the
store together with the final list. -/
def RAGPipeline.search (db : Nat → List Doc) (rrk : List Doc → Nat → List Doc)
    (top_k : Nat) (rerank : Bool) : Nat × List Doc :=
  let search_k := searchK top_k rerank
  let results := db search_k
  let results2 := if rerank ∧ results ≠ [] then rrk results top_k else results
  (search_k, results2.take top_k)

/-! ## Chinese text chunker (`src/app/ingestion/chunker.py`)

Text is `List Char` (Python `len`/slicing count code points).  The two
loops whose progress is not structural — the scan of `str.split` and the
`while` loop of `_split_by_size` — carry an explicit fuel argument that
their callers set to `text.length`, the exact bound on their iteration
count; this keeps every function structurally recursive and hence
kernel-computable.  The fuel-exhaustion branches return without the
remaining text; `c10_chunker_bound_and_termination` proves the
`_split_by_size` loop stable under any sufficient fuel when
`chunk_overlap < chunk_size` (the loop diverges otherwise, which is why
the claim assumes it). -/

/-- Python `text.split(sep)` for a non-empty separator. -/
def pySplitGo (sep : List Char) : Nat → List Char → List (List Char)
| _, [] => [[]]
| 0, text => [text]
| fuel+1, c :: cs =>
  if sep.isPrefixOf (c :: cs) then
    [] :: pySplitGo sep fuel (cs.drop (sep.length - 1))
  else
    match pySplitGo sep fuel cs with
    | [] => [[c]]
    | p :: ps => (c :: p) :: ps

/-- `text.split(sep)` with its exact fuel. -/
def pySplit (sep text : List Char) : List (List Char) :=
  pySplitGo sep text.length text

/-- Python `sep in text`. -/
def isInfixB (sep : List Char) : List Char → Bool
| [] => sep.isEmpty
| c :: cs => sep.isPrefixOf (c :: cs) || isInfixB sep cs

/-- The `while start < len(text)` loop of
`ChineseTextChunker._split_by_size`: each iteration emits
`text[start:start+chunk_size]` and advances `start` by
`chunk_size - chunk_overlap` (or finishes). -/
def splitBySizeGo (chunk_size chunk_overlap : Nat) : Nat → List Char → List (List Char)
| _, [] => []
| 0, _ :: _ => []
| fuel+1, c :: cs =>
  if (c :: cs).length ≤ chunk_size then [c :: cs]
  else (c :: cs).take chunk_size ::
    splitBySizeGo chunk_size chunk_overlap fuel ((c :: cs).drop (chunk_size - chunk_overlap))

/-- `ChineseTextChunker._split_by_size`. -/
def ChineseTextChunker.splitBySize (chunk_size chunk_overlap : Nat)
    (text : List Char) : List (List Char) :=
  splitBySizeGo chunk_size chunk_overlap text.length text

/-- `self.separators` of `ChineseTextChunker`. -/
def ChineseTextChunker.separators : List (List Char) :=
  [['\n', '\n'], ['\n'], ['。'], ['！'], ['？'], ['；'], ['，']]

/-- Whether `_split_recursive` re-appends the separator
(`sep not in ["\n", "\n\n"]`). -/
def keepSepB (sep : List Char) : Bool :=
  !(sep = ['\n'] || sep = ['\n', '\n'])

/-- The `for i, part in enumerate(parts)` loop of
`ChineseTextChunker._split_recursive`: skip empty parts, re-append the
separator except on the last part, keep parts that fit and recurse (via
`recur`, the continuation with the remaining separators) on those that do
not. -/
def chunkParts (chunk_size : Nat) (recur : List Char → List (List Char))
    (sep : List Char) (keep : Bool) : List (List Char) → List (List Char)
| [] => []
| p :: ps =>
  (if p = [] then []
   else
     let part := if keep && !ps.isEmpty then p ++ sep else p
     if part.length ≤ chunk_size then [part] else recur part)
  ++ chunkParts chunk_size recur sep keep ps

/-- `ChineseTextChunker._split_recursive`; the fuel equals the number of
remaining separators, which bounds the recursion exactly. -/
def splitRecursiveGo (chunk_size chunk_overlap : Nat) :
    Nat → List (List Char) → List Char → List (List Char)
| _, [], text => ChineseTextChunker.splitBySize chunk_size chunk_overlap text
| 0, _ :: _, _ => []
| fuel+1, sep :: rest, text =>
  if isInfixB sep text then
    chunkParts chunk_size
      (fun part => splitRecursiveGo chunk_size chunk_overlap fuel rest part)
      sep (keepSepB sep) (pySplit sep text)
  else splitRecursiveGo chunk_size chunk_overlap fuel rest text

/-- `ChineseTextChunker._split_recursive` at its exact fuel. -/
def ChineseTextChunker.splitRecursive (chunk_size chunk_overlap : Nat)
    (seps : List (List Char)) (text : List Char) : List (List Char) :=
  splitRecursiveGo chunk_size chunk_overlap seps.length seps text

/-- Python `str.strip()`. -/
def pyStrip (s : List Char) : List Char :=
  ((s.dropWhile Char.isWhitespace).reverse.dropWhile Char.isWhitespace).reverse

/-- The merging loop of `ChineseTextChunker._merge_chunks` after the first
chunk seeds `current`. -/
def mergeGo (chunk_size : Nat) (current : List Char) :
    List (List Char) → List (List Char)
| [] => if pyStrip current ≠ [] then [pyStrip current] else []
| chunk :: rest =>
  if current.length + chunk.length ≤ chunk_size then
    mergeGo chunk_size (current ++ chunk) rest
  else
    (if pyStrip current ≠ [] then [pyStrip current] else [])
      ++ mergeGo chunk_size chunk rest

/-- `ChineseTextChunker._merge_chunks`. -/
def ChineseTextChunker.mergeChunks (chunk_size : Nat) :
    List (List Char) → List (List Char)
| [] => []
| c :: cs => mergeGo chunk_size c cs

/-- `ChineseTextChunker.split`. -/
def ChineseTextChunker.split (chunk_size chunk_overlap : Nat)
    (text : List Char) : List (List Char) :=
  if text = [] then []
  else ChineseTextChunker.mergeChunks chunk_size
    (ChineseTextChunker.splitRecursive chunk_size chunk_overlap
      ChineseTextChunker.separators text)

/-! ## Concrete inputs used by the claim witnesses and counterexamples -/

/-- Embedding backend for the reranker scenarios: the query and the
candidate whose content is `"good"` embed successfully, every other fetch
raises. -/
def w4fetch : String → Option (List ℚ) := fun s =>
  if s = "Q" then some [1, 0] else if s = "good" then some [1, 1] else none

/-- A concrete similarity function. -/
def w4sim : List ℚ → List ℚ → ℚ := fun _ _ => 1/4

/-- A candidate whose embedding fetch succeeds. -/
def w4good : Doc := { content := "good", score := some (3/5) }

/-- A candidate whose embedding fetch raises. -/
def w4bad : Doc := { content := "bad", score := some (2/5) }

/-- Two tied candidates (both embedding fetches raise, so both keep their
equal original scores). -/
def w6d1 : Doc := { id := "d1", content := "t1", score := some 1 }

/-- Second tied candidate; appears after `w6d1` in the input. -/
def w6d2 : Doc := { id := "d2", content := "t2", score := some 1 }

/-- Caller-owned message heap: a leading `system` message and a `user`
question. -/
def c7heap : List Message := [⟨"system", "原始系統提示"⟩, ⟨"user", "問題"⟩]

/-- A non-empty retrieval outcome for the `ask` scenario. -/
def c7doc : Doc :=
  { id := "T0251", content := "經文內容", title := some "心經", score := some 1 }

/-! ## Gateway lemmas and claim theorems -/

theorem tryFallbackGo_trace_pos (s : Settings) (oracle : LLMConfig → CallResult)
    (gas nl : Nat) (cfg : LLMConfig) (msg : String) :
    1 ≤ (LLMService.tryFallbackGo s oracle (gas+1) nl cfg msg).1.length := by
  simp only [LLMService.tryFallbackGo]
  cases h : LLMService.callLLM oracle (LLMConfig.to_fallback s cfg nl) with
  | ok c => simp
  | error e => cases e <;> (repeat' split) <;> simp

/-- C1: with every backend down, a request resolved to the preset `deepseek`
profile makes exactly two attempts: the primary one and then directly the
terminal `ollama` profile.  The chain entry `glm` is never targeted, because
`to_fallback` reads `FALLBACK_CHAIN[level]` with `level` starting at 1. -/
theorem c1_second_attempt_targets_ollama :
    ((LLMService.chat defaultSettings allDownOracle deepseekCfg true true).1.map
        (fun c => c.provider)) = ["deepseek", "ollama"]
    ∧ (LLMService.chat defaultSettings allDownOracle deepseekCfg true true).2 =
        .exc .connectTimeout := by decide

/-- C2 counterexample: the default resolution yields the terminal `ollama`
profile, and when its call fails the result is the raw connection error,
not `LLMServiceDegraded`. -/
theorem c2_failure_at_terminal_not_degraded :
    LLMConfig.from_request defaultSettings PRESET_PROVIDERS none none none none =
      .ok ollamaCfg
    ∧ (LLMService.chat defaultSettings allDownOracle ollamaCfg true true).2 =
        .exc .connectTimeout
    ∧ isDegraded (LLMService.chat defaultSettings allDownOracle ollamaCfg true true).2 =
        false := by decide

/-- C2 (amended): once the terminal `ollama` profile is the current provider
— either because the request resolved to it directly, or because the
fallback loop has hopped onto it — any failure propagates the underlying
backend error unchanged and no additional fallback attempt is made. -/
theorem c2_terminal_failure_propagates_raw_error (s : Settings)
    (oracle : LLMConfig → CallResult) (cfg cfg₂ : LLMConfig) (af fe : Bool)
    (e e₂ : CallError) (gas nl : Nat) (msg : String)
    (h1 : cfg.provider = "ollama") (h2 : oracle cfg = .error e)
    (h3 : (LLMConfig.to_fallback s cfg₂ nl).provider = "ollama")
    (h4 : oracle (LLMConfig.to_fallback s cfg₂ nl) = .error e₂) :
    LLMService.chat s oracle cfg af fe = ([cfg], .exc e)
    ∧ LLMService.tryFallbackGo s oracle (gas+1) nl cfg₂ msg =
        ([LLMConfig.to_fallback s cfg₂ nl], .exc e₂) := by
  constructor
  · simp only [LLMService.chat, h1, if_pos, LLMService.callLLM, h2, liftCall]
  · simp only [LLMService.tryFallbackGo, LLMService.callLLM, h4]
    cases e₂ <;> simp [h3]

/-- Witness for `c2_terminal_failure_propagates_raw_error` at the default
settings, all backends down, the default-resolved `ollama` config and the
fallback config reached from `deepseek`. -/
theorem c2_terminal_failure_propagates_raw_error_witness :
    LLMService.chat defaultSettings allDownOracle ollamaCfg true true =
      ([ollamaCfg], .exc .connectTimeout)
    ∧ LLMService.tryFallbackGo defaultSettings allDownOracle 1 1 deepseekCfg "" =
        ([LLMConfig.to_fallback defaultSettings deepseekCfg 1], .exc .connectTimeout) :=
  c2_terminal_failure_propagates_raw_error defaultSettings allDownOracle ollamaCfg
    deepseekCfg true true .connectTimeout .connectTimeout 0 1 ""
    (by decide) (by decide) (by decide) (by decide)

/-- C3: for a request whose resolved provider is not the terminal profile
(`fallback_level = 0`, as `from_request` always produces) with fallback
allowed, when the first attempt fails a fallback attempt is made if and
only if the error is retryable (timeout, connection error, or HTTP status
in {429, 500, 502, 503, 504}); otherwise the error propagates immediately
with no fallback attempt. -/
theorem c3_fallback_iff_retryable (s : Settings) (oracle : LLMConfig → CallResult)
    (cfg : LLMConfig) (e : CallError)
    (h1 : cfg.provider ≠ "ollama") (h2 : cfg.fallback_level = 0)
    (h3 : oracle cfg = .error e) :
    (2 ≤ (LLMService.chat s oracle cfg true true).1.length ↔ retryable e = true)
    ∧ (LLMService.chat s oracle cfg true true = ([cfg], .exc e) ↔
        retryable e = false) := by
  have hcall : LLMService.callLLM oracle cfg = .error e := by
    simp [LLMService.callLLM, h3]
  have hfb : ∀ msg, 1 ≤ (LLMService.tryFallback s oracle cfg msg).1.length := by
    intro msg
    simp only [LLMService.tryFallback, h2]
    exact tryFallbackGo_trace_pos s oracle 1 1 cfg msg
  have hA : ∀ msg, 2 ≤ (cfg :: (LLMService.tryFallback s oracle cfg msg).1).length := by
    intro msg
    have := hfb msg
    simp only [List.length_cons]
    omega
  have hB : ∀ msg r2 c, (cfg :: (LLMService.tryFallback s oracle cfg msg).1, r2) ≠
      (([cfg], c) : List LLMConfig × ChatResult) := by
    intro msg r2 c h
    have hl : cfg :: (LLMService.tryFallback s oracle cfg msg).1 = [cfg] :=
      congrArg Prod.fst h
    have hnil : (LLMService.tryFallback s oracle cfg msg).1 = [] := by
      simpa using hl
    have h1l := hfb msg
    rw [hnil] at h1l
    simp at h1l
  simp only [LLMService.chat, if_neg h1, hcall]
  cases e with
  | httpStatusError code =>
    by_cases hc : code ∈ FALLBACK_STATUS_CODES
    · have hc2 : FALLBACK_STATUS_CODES.contains code = true := by
        simpa using hc
      simp only [retryable, hc2]
      split
      · exact ⟨iff_of_true (hA _) (by simp), iff_of_false (hB _ _ _) (by simp)⟩
      · rename_i hcond
        simp [hc2] at hcond
    · have hc2 : FALLBACK_STATUS_CODES.contains code = false := by
        simpa using hc
      simp only [retryable, hc2]
      split
      · rename_i hcond
        simp [hc2] at hcond
      · simp
  | otherException n => simp [retryable]
  | connectError =>
    simp only [retryable]
    split
    · exact ⟨iff_of_true (hA _) (by simp), iff_of_false (hB _ _ _) (by simp)⟩
    · rename_i hcond
      simp at hcond
  | connectTimeout =>
    simp only [retryable]
    split
    · exact ⟨iff_of_true (hA _) (by simp), iff_of_false (hB _ _ _) (by simp)⟩
    · rename_i hcond
      simp at hcond
  | readTimeout =>
    simp only [retryable]
    split
    · exact ⟨iff_of_true (hA _) (by simp), iff_of_false (hB _ _ _) (by simp)⟩
    · rename_i hcond
      simp at hcond
  | writeTimeout =>
    simp only [retryable]
    split
    · exact ⟨iff_of_true (hA _) (by simp), iff_of_false (hB _ _ _) (by simp)⟩
    · rename_i hcond
      simp at hcond
  | poolTimeout =>
    simp only [retryable]
    split
    · exact ⟨iff_of_true (hA _) (by simp), iff_of_false (hB _ _ _) (by simp)⟩
    · rename_i hcond
      simp at hcond

/-- Witness for `c3_fallback_iff_retryable`: the `deepseek` profile and a
backend that answers HTTP 400 (non-retryable). -/
theorem c3_fallback_iff_retryable_witness :
    (2 ≤ (LLMService.chat defaultSettings (fun _ => .error (.httpStatusError 400))
          deepseekCfg true true).1.length ↔ retryable (.httpStatusError 400) = true)
    ∧ (LLMService.chat defaultSettings (fun _ => .error (.httpStatusError 400))
          deepseekCfg true true = ([deepseekCfg], .exc (.httpStatusError 400)) ↔
        retryable (.httpStatusError 400) = false) :=
  c3_fallback_iff_retryable defaultSettings (fun _ => .error (.httpStatusError 400))
    deepseekCfg (.httpStatusError 400) (by decide) (by decide) (by decide)

/-- C9: supplying a custom non-empty endpoint makes resolution succeed with
no preset-table lookup and no provider-name validation — for every preset
table and every (possibly absent or unknown) provider name — and the
resolved model falls back to the placeholder `"custom-model"` when no model
is given. -/
theorem c9_custom_endpoint_bypasses_presets (s : Settings)
    (presets : List (String × Preset)) (provider api_key model : Option String)
    (u : String) (hu : u ≠ "") :
    LLMConfig.from_request s presets provider (some u) api_key model =
      .ok { provider := pyOrS provider s.DEFAULT_PROVIDER, base_url := u,
            api_key := pyOrS api_key "", model := pyOrS model "custom-model" } := by
  simp [LLMConfig.from_request, pyOrS, hu]

/-- Witness for `c9_custom_endpoint_bypasses_presets`: an empty preset table,
an unknown provider name, no key and no model. -/
theorem c9_custom_endpoint_bypasses_presets_witness :
    LLMConfig.from_request defaultSettings [] (some "no-such-provider")
        (some "https://custom/v1") none none =
      .ok { provider := "no-such-provider", base_url := "https://custom/v1",
            api_key := "", model := "custom-model" } :=
  c9_custom_endpoint_bypasses_presets defaultSettings [] (some "no-such-provider")
    none none "https://custom/v1" (by decide)

/-! ## Reranker lemmas and claim theorems -/

/-- C4: under a successful query embedding and `top_k` at least the input
size, a candidate whose embedding fetch succeeds (with a non-empty vector)
appears in the rerank output carrying the fused score
`original * 0.3 + similarity * 0.7`, and a candidate whose fetch raises
appears with similarity 0 and its plain original retrieval score. -/
theorem c4_rerank_score_formula (sim : List ℚ → List ℚ → ℚ)
    (fetch : String → Option (List ℚ)) (query : String) (documents : List Doc)
    (top_k : Nat) (d d2 : Doc) (e : List ℚ)
    (hq : (fetch query).getD [] ≠ [])
    (htk : documents.length ≤ top_k)
    (hd : d ∈ documents) (hd2 : d2 ∈ documents)
    (hde : fetch (pyTruncate 500 d.content) = some e) (hene : e ≠ [])
    (hfail : fetch (pyTruncate 500 d2.content) = none) :
    (RerankerService.scoreDoc sim fetch ((fetch query).getD []) d).score =
      some (d.score.getD (1/2) * (3/10) + sim ((fetch query).getD []) e * (7/10))
    ∧ (RerankerService.scoreDoc sim fetch ((fetch query).getD []) d2).score =
      some (d2.score.getD 0)
    ∧ (RerankerService.scoreDoc sim fetch ((fetch query).getD []) d2).rerank_score =
      some 0
    ∧ RerankerService.scoreDoc sim fetch ((fetch query).getD []) d ∈
        RerankerService.rerank sim fetch query documents top_k
    ∧ RerankerService.scoreDoc sim fetch ((fetch query).getD []) d2 ∈
        RerankerService.rerank sim fetch query documents top_k := by
  have hdocs : documents ≠ [] := List.ne_nil_of_mem hd
  have hemb : RerankerService.getDocEmbedding fetch d = e := by
    simp [RerankerService.getDocEmbedding, hde]
  have hemb2 : RerankerService.getDocEmbedding fetch d2 = [] := by
    simp [RerankerService.getDocEmbedding, hfail]
  have hrw : RerankerService.rerank sim fetch query documents top_k =
      List.insertionSort byScoreDesc
        (documents.map (RerankerService.scoreDoc sim fetch ((fetch query).getD []))) := by
    rw [RerankerService.rerank, if_neg hdocs, RerankerService.rerankGuard,
        RerankerService.rerankBody]
    simp only [hq, if_neg]
    apply List.take_of_length_le
    rw [List.length_insertionSort, List.length_map]
    exact htk
  refine ⟨?_, ?_, ?_, ?_, ?_⟩
  · rw [RerankerService.scoreDoc]
    simp [hemb, hene]
  · rw [RerankerService.scoreDoc]
    simp [hemb2]
  · rw [RerankerService.scoreDoc]
    simp [hemb2]
  · rw [hrw, List.mem_insertionSort]
    exact List.mem_map_of_mem _ hd
  · rw [hrw, List.mem_insertionSort]
    exact List.mem_map_of_mem _ hd2

/-- Witness for `c4_rerank_score_formula`: two candidates, one successful
and one failing embedding fetch. -/
theorem c4_rerank_score_formula_witness :
    (RerankerService.scoreDoc w4sim w4fetch ((w4fetch "Q").getD []) w4good).score =
      some (w4good.score.getD (1/2) * (3/10) +
        w4sim ((w4fetch "Q").getD []) [1, 1] * (7/10))
    ∧ (RerankerService.scoreDoc w4sim w4fetch ((w4fetch "Q").getD []) w4bad).score =
      some (w4bad.score.getD 0)
    ∧ (RerankerService.scoreDoc w4sim w4fetch ((w4fetch "Q").getD []) w4bad).rerank_score =
      some 0
    ∧ RerankerService.scoreDoc w4sim w4fetch ((w4fetch "Q").getD []) w4good ∈
        RerankerService.rerank w4sim w4fetch "Q" [w4good, w4bad] 5
    ∧ RerankerService.scoreDoc w4sim w4fetch ((w4fetch "Q").getD []) w4bad ∈
        RerankerService.rerank w4sim w4fetch "Q" [w4good, w4bad] 5 :=
  c4_rerank_score_formula w4sim w4fetch "Q" [w4good, w4bad] 5 w4good w4bad [1, 1]
    (by decide) (by decide) (by simp) (by simp) (by decide) (by decide) (by decide)

/-- C5: if the query embedding fetch fails (or yields an empty vector),
rerank returns the input order truncated to `top_k`; and if the fan-out or
surrounding logic raises any unexpected error, the `except` wrapper also
returns the input order truncated to `top_k` instead of propagating. -/
theorem c5_rerank_error_fallback (sim : List ℚ → List ℚ → ℚ)
    (fetch : String → Option (List ℚ)) (query : String) (documents : List Doc)
    (top_k : Nat) (err : String)
    (hq : (fetch query).getD [] = []) :
    RerankerService.rerank sim fetch query documents top_k = documents.take top_k
    ∧ RerankerService.rerankGuard documents top_k (.error err) =
        documents.take top_k := by
  constructor
  · by_cases hdocs : documents = []
    · subst hdocs; simp [RerankerService.rerank]
    · rw [RerankerService.rerank, if_neg hdocs, RerankerService.rerankGuard,
          RerankerService.rerankBody]
      simp [hq]
  · rfl

/-- Witness for `c5_rerank_error_fallback`: an embedding backend that is
fully down. -/
theorem c5_rerank_error_fallback_witness :
    RerankerService.rerank w4sim (fun _ => none) "Q" [w6d1, w6d2] 1 =
      [w6d1, w6d2].take 1
    ∧ RerankerService.rerankGuard [w6d1, w6d2] 1 (.error "boom") =
        [w6d1, w6d2].take 1 :=
  c5_rerank_error_fallback w4sim (fun _ => none) "Q" [w6d1, w6d2] 1 "boom" (by decide)

/-- C6: with a non-empty input and a successful query embedding, the rerank
output is the stable descending sort of the scored candidates truncated to
`top_k` after sorting; it is sorted descending by combined score, and any
two tied scored candidates keep their input order in the sorted list. -/
theorem c6_rerank_sorted_stable_truncated (sim : List ℚ → List ℚ → ℚ)
    (fetch : String → Option (List ℚ)) (query : String) (documents : List Doc)
    (top_k : Nat) (a b : Doc)
    (hne : documents ≠ [])
    (hq : (fetch query).getD [] ≠ [])
    (hab : List.Sublist [a, b]
        (documents.map (RerankerService.scoreDoc sim fetch ((fetch query).getD []))))
    (htie : docKey a = docKey b) :
    RerankerService.rerank sim fetch query documents top_k =
      (List.insertionSort byScoreDesc
        (documents.map
          (RerankerService.scoreDoc sim fetch ((fetch query).getD [])))).take top_k
    ∧ (RerankerService.rerank sim fetch query documents top_k).Pairwise byScoreDesc
    ∧ List.Sublist [a, b] (List.insertionSort byScoreDesc
        (documents.map (RerankerService.scoreDoc sim fetch ((fetch query).getD [])))) := by
  have hrw : RerankerService.rerank sim fetch query documents top_k =
      (List.insertionSort byScoreDesc
        (documents.map
          (RerankerService.scoreDoc sim fetch ((fetch query).getD [])))).take top_k := by
    rw [RerankerService.rerank, if_neg hne, RerankerService.rerankGuard,
        RerankerService.rerankBody]
    simp [hq]
  refine ⟨hrw, ?_, ?_⟩
  · rw [hrw]
    exact (List.sorted_insertionSort byScoreDesc _).sublist (List.take_sublist _ _)
  · exact List.pair_sublist_insertionSort (le_of_eq htie.symm) hab

/-- Witness for `c6_rerank_sorted_stable_truncated`: two tied candidates
whose embedding fetches fail, so both keep their equal original scores. -/
theorem c6_rerank_sorted_stable_truncated_witness :
    RerankerService.rerank w4sim w4fetch "Q" [w6d1, w6d2] 2 =
      (List.insertionSort byScoreDesc
        ([w6d1, w6d2].map
          (RerankerService.scoreDoc w4sim w4fetch ((w4fetch "Q").getD [])))).take 2
    ∧ (RerankerService.rerank w4sim w4fetch "Q" [w6d1, w6d2] 2).Pairwise byScoreDesc
    ∧ List.Sublist [RerankerService.scoreDoc w4sim w4fetch ((w4fetch "Q").getD []) w6d1,
       RerankerService.scoreDoc w4sim w4fetch ((w4fetch "Q").getD []) w6d2]
        (List.insertionSort byScoreDesc
          ([w6d1, w6d2].map
            (RerankerService.scoreDoc w4sim w4fetch ((w4fetch "Q").getD [])))) :=
  c6_rerank_sorted_stable_truncated w4sim w4fetch "Q" [w6d1, w6d2] 2
    (RerankerService.scoreDoc w4sim w4fetch ((w4fetch "Q").getD []) w6d1)
    (RerankerService.scoreDoc w4sim w4fetch ((w4fetch "Q").getD []) w6d2)
    (by decide) (by decide) (by decide) (by decide)

/-! ## Orchestrator claim theorems -/

/-- C7: `ask` is not free of caller-visible side effects.  With a leading
`system` message and a non-empty retrieval outcome, the caller's leading
message object is mutated in place — `messages.copy()` copies only the
reference list, and `final_messages[0]["content"] = system_prompt` writes
through the shared reference — while the caller's list itself still holds
the same references. -/
theorem c7_ask_mutates_callers_system_message :
    ((RAGPipeline.askState c7heap [0, 1] [c7doc] true).1.getD 0 ⟨"", ""⟩ ≠
      c7heap.getD 0 ⟨"", ""⟩)
    ∧ (RAGPipeline.askState c7heap [0, 1] [c7doc] true).2 = [0, 1]
    ∧ ((RAGPipeline.askState c7heap [0, 1] [c7doc] true).1.getD 0 ⟨"", ""⟩).role =
        "system" := by decide

/-- C8: `search` asks the vector store for `int(top_k * 1.5)` candidates
when reranking is enabled and exactly `top_k` otherwise, and the final
list is truncated to at most `top_k` elements on every path. -/
theorem c8_search_overfetch_and_truncate (db : Nat → List Doc)
    (rrk : List Doc → Nat → List Doc) (top_k : Nat) (rerank : Bool) :
    (RAGPipeline.search db rrk top_k rerank).1 =
      (if rerank then 3 * top_k / 2 else top_k)
    ∧ (RAGPipeline.search db rrk top_k rerank).2.length ≤ top_k := by
  constructor
  · rfl
  · exact List.length_take_le _ _

/-! ## Chunker lemmas and claim theorem -/

theorem splitBySizeGo_length_le (chunk_size chunk_overlap : Nat) :
    ∀ (fuel : Nat) (text c : List Char),
      c ∈ splitBySizeGo chunk_size chunk_overlap fuel text →
        c.length ≤ chunk_size := by
  intro fuel
  induction fuel with
  | zero =>
    intro text c hc
    cases text <;> simp [splitBySizeGo] at hc
  | succ n ih =>
    intro text c hc
    cases text with
    | nil => simp [splitBySizeGo] at hc
    | cons x xs =>
      simp only [splitBySizeGo] at hc
      by_cases h : (x :: xs).length ≤ chunk_size
      · rw [if_pos h] at hc
        simp at hc
        subst hc
        exact h
      · rw [if_neg h] at hc
        rcases List.mem_cons.mp hc with h1 | h2
        · subst h1
          exact List.length_take_le _ _
        · exact ih _ _ h2

theorem chunkParts_length_le (chunk_size : Nat) (recur : List Char → List (List Char))
    (sep : List Char) (keep : Bool)
    (hrec : ∀ p c, c ∈ recur p → c.length ≤ chunk_size) :
    ∀ (parts : List (List Char)) (c : List Char),
      c ∈ chunkParts chunk_size recur sep keep parts → c.length ≤ chunk_size := by
  intro parts
  induction parts with
  | nil => intro c hc; simp [chunkParts] at hc
  | cons p ps ih =>
    intro c hc
    simp only [chunkParts, List.mem_append] at hc
    rcases hc with h1 | h2
    · by_cases hp : p = []
      · rw [if_pos hp] at h1
        simp at h1
      · rw [if_neg hp] at h1
        by_cases hl : (if keep && !ps.isEmpty then p ++ sep else p).length ≤ chunk_size
        · rw [if_pos hl] at h1
          rw [List.mem_singleton] at h1
          subst h1
          exact hl
        · rw [if_neg hl] at h1
          exact hrec _ _ h1
    · exact ih c h2

theorem splitRecursiveGo_length_le (chunk_size chunk_overlap : Nat) :
    ∀ (fuel : Nat) (seps : List (List Char)) (text c : List Char),
      c ∈ splitRecursiveGo chunk_size chunk_overlap fuel seps text →
        c.length ≤ chunk_size := by
  intro fuel
  induction fuel with
  | zero =>
    intro seps text c hc
    cases seps with
    | nil =>
      simp only [splitRecursiveGo, ChineseTextChunker.splitBySize] at hc
      exact splitBySizeGo_length_le _ _ _ _ _ hc
    | cons s rest => simp [splitRecursiveGo] at hc
  | succ n ih =>
    intro seps text c hc
    cases seps with
    | nil =>
      simp only [splitRecursiveGo, ChineseTextChunker.splitBySize] at hc
      exact splitBySizeGo_length_le _ _ _ _ _ hc
    | cons s rest =>
      simp only [splitRecursiveGo] at hc
      by_cases hinf : isInfixB s text = true
      · rw [if_pos hinf] at hc
        exact chunkParts_length_le _ _ _ _ (fun p c2 h => ih rest p c2 h) _ _ hc
      · rw [if_neg hinf] at hc
        exact ih rest text c hc

theorem pyStrip_length_le (s : List Char) : (pyStrip s).length ≤ s.length := by
  unfold pyStrip
  rw [List.length_reverse]
  refine le_trans (List.dropWhile_sublist _).length_le ?_
  rw [List.length_reverse]
  exact (List.dropWhile_sublist _).length_le

theorem mergeGo_length_le (chunk_size : Nat) :
    ∀ (chunks : List (List Char)) (current : List Char),
      current.length ≤ chunk_size → (∀ c ∈ chunks, c.length ≤ chunk_size) →
      ∀ c ∈ mergeGo chunk_size current chunks, c.length ≤ chunk_size := by
  intro chunks
  induction chunks with
  | nil =>
    intro current hcur _ c hc
    simp only [mergeGo] at hc
    split at hc
    · simp at hc
      subst hc
      exact le_trans (pyStrip_length_le current) hcur
    · simp at hc
  | cons ch rest ih =>
    intro current hcur hall c hc
    simp only [mergeGo] at hc
    by_cases h : current.length + ch.length ≤ chunk_size
    · rw [if_pos h] at hc
      refine ih (current ++ ch) ?_ ?_ c hc
      · rw [List.length_append]
        exact h
      · intro c2 h2
        exact hall c2 (List.mem_cons_of_mem _ h2)
    · rw [if_neg h] at hc
      rcases List.mem_append.mp hc with h1 | h2
      · split at h1
        · simp at h1
          subst h1
          exact le_trans (pyStrip_length_le current) hcur
        · simp at h1
      · exact ih ch (hall ch (List.mem_cons_self _ _))
          (fun c2 h2 => hall c2 (List.mem_cons_of_mem _ h2)) c h2

theorem mergeChunks_length_le (chunk_size : Nat) (chunks : List (List Char))
    (hall : ∀ c ∈ chunks, c.length ≤ chunk_size) :
    ∀ c ∈ ChineseTextChunker.mergeChunks chunk_size chunks,
      c.length ≤ chunk_size := by
  cases chunks with
  | nil =>
    intro c hc
    simp [ChineseTextChunker.mergeChunks] at hc
  | cons c0 cs =>
    intro c hc
    simp only [ChineseTextChunker.mergeChunks] at hc
    exact mergeGo_length_le chunk_size cs c0 (hall c0 (List.mem_cons_self _ _))
      (fun c2 h2 => hall c2 (List.mem_cons_of_mem _ h2)) c hc

theorem splitBySizeGo_fuel_succ (chunk_size chunk_overlap : Nat)
    (hso : chunk_overlap < chunk_size) :
    ∀ (fuel : Nat) (text : List Char), text.length ≤ fuel →
      splitBySizeGo chunk_size chunk_overlap (fuel+1) text =
        splitBySizeGo chunk_size chunk_overlap fuel text := by
  intro fuel
  induction fuel with
  | zero =>
    intro text ht
    have hnil : text = [] := List.eq_nil_of_length_eq_zero (Nat.le_zero.mp ht)
    subst hnil
    simp [splitBySizeGo]
  | succ n ih =>
    intro text ht
    cases text with
    | nil => simp [splitBySizeGo]
    | cons x xs =>
      simp only [splitBySizeGo]
      by_cases h : (x :: xs).length ≤ chunk_size
      · rw [if_pos h, if_pos h]
      · rw [if_neg h, if_neg h]
        congr 1
        apply ih
        have hdrop : ((x :: xs).drop (chunk_size - chunk_overlap)).length =
            (x :: xs).length - (chunk_size - chunk_overlap) := List.length_drop _ _
        have hlen : (x :: xs).length ≤ n + 1 := ht
        omega

theorem splitBySizeGo_fuel_stable (chunk_size chunk_overlap : Nat)
    (hso : chunk_overlap < chunk_size) (text : List Char) :
    ∀ fuel, text.length ≤ fuel →
      splitBySizeGo chunk_size chunk_overlap fuel text =
        splitBySizeGo chunk_size chunk_overlap text.length text := by
  intro fuel
  induction fuel with
  | zero =>
    intro h
    rw [show text.length = 0 from Nat.le_zero.mp h]
  | succ n ih =>
    intro h
    rcases Nat.lt_or_ge text.length (n+1) with hlt | hge
    · have hn : text.length ≤ n := Nat.lt_succ_iff.mp hlt
      rw [splitBySizeGo_fuel_succ chunk_size chunk_overlap hso n text hn]
      exact ih hn
    · rw [Nat.le_antisymm h hge]

/-- C10: when `chunk_overlap < chunk_size`, `ChineseTextChunker.split`
terminates — its one configuration-dependent loop, the `while` of
`_split_by_size`, computes the same result under any fuel at least
`text.length`, i.e. it finishes within `text.length` iterations — and
every chunk of the output has length at most `chunk_size`. -/
theorem c10_chunker_bound_and_termination (chunk_size chunk_overlap fuel : Nat)
    (text c : List Char) (hso : chunk_overlap < chunk_size)
    (hc : c ∈ ChineseTextChunker.split chunk_size chunk_overlap text)
    (hfuel : text.length ≤ fuel) :
    c.length ≤ chunk_size
    ∧ splitBySizeGo chunk_size chunk_overlap fuel text =
        splitBySizeGo chunk_size chunk_overlap text.length text := by
  constructor
  · rw [ChineseTextChunker.split] at hc
    by_cases ht : text = []
    · rw [if_pos ht] at hc
      simp at hc
    · rw [if_neg ht] at hc
      refine mergeChunks_length_le chunk_size _ ?_ c hc
      intro c2 h2
      rw [ChineseTextChunker.splitRecursive] at h2
      exact splitRecursiveGo_length_le chunk_size chunk_overlap _ _ _ c2 h2
  · exact splitBySizeGo_fuel_stable chunk_size chunk_overlap hso text fuel hfuel

/-- Witness for `c10_chunker_bound_and_termination` on a concrete text
split at the `。` separator and then by size. -/
theorem c10_chunker_bound_and_termination_witness :
    "cdefg".toList.length ≤ 5
    ∧ splitBySizeGo 5 2 14 "ab。cdefghijk。x".toList =
        splitBySizeGo 5 2 "ab。cdefghijk。x".toList.length "ab。cdefghijk。x".toList :=
  c10_chunker_bound_and_termination 5 2 14 "ab。cdefghijk。x".toList "cdefg".toList
    (by decide) (by decide) (by decide)
